import Mathlib

/-!
Verification development for the Kitchener finance dashboard
(`src/finance.py`).  The Python program is a linear ETL pipeline:

  fetch rows from a sheet → clean/normalize → derive time columns →
  filter by selected year and month → aggregate → render.

This file gives a shallow embedding of that pipeline.  Raw rows are
`List String`; the pandas date/number coercions (`pd.to_datetime`,
`pd.to_numeric`, both with `errors='coerce'`) are modelled by executable
parsers returning `Option`.  `pd.to_datetime` is modelled on ISO
`YYYY-MM-DD` strings (the tolerant parser accepts more formats; every
claim below is parametric in which strings parse, so the restriction is
harmless).  `pd.to_numeric` is modelled on plain signed decimal literals
(no exponent form).  Missing values (`NaT` / `NaN`) are `none`; pandas
sums skip `NaN`, modelled by `Option.getD 0`.
-/

namespace KitchenerFinance

/-! ### Characters, trimming, splitting -/

/-- All characters of `cs` are decimal digits. -/
def allDigits (cs : List Char) : Bool := cs.all (·.isDigit)

/-- Decimal value of a digit string (caller checks `allDigits`). -/
def digitsVal (cs : List Char) : Nat := cs.foldl (fun a c => 10 * a + (c.toNat - 48)) 0

/-- Strip surrounding whitespace, as Python `str.strip()` / pandas `str.strip()`. -/
def trimChars (cs : List Char) : List Char :=
  ((cs.dropWhile (·.isWhitespace)).reverse.dropWhile (·.isWhitespace)).reverse

/-- String wrapper for `trimChars`. -/
def strTrim (s : String) : String := ⟨trimChars s.data⟩

/-- Split a character list at every occurrence of `c` (like `str.split(c)`). -/
def splitOnChar (c : Char) : List Char → List (List Char)
  | [] => [[]]
  | x :: xs =>
    let r := splitOnChar c xs
    if x = c then [] :: r
    else
      match r with
      | [] => [[x]]
      | h :: t => (x :: h) :: t

/-- ASCII-lowered characters, modelling `case=False` matching. -/
def lowerChars (cs : List Char) : List Char := cs.map Char.toLower

/-- `startsWithList n h`: `n` is an initial segment of `h`. -/
def startsWithList : List Char → List Char → Bool
  | [], _ => true
  | _ :: _, [] => false
  | a :: as, b :: bs => a == b && startsWithList as bs

/-- `containsSub n h`: `n` occurs contiguously somewhere inside `h`
(unanchored substring search, as `re.search` with a literal pattern). -/
def containsSub (needle : List Char) : List Char → Bool
  | [] => needle.isEmpty
  | b :: bs => startsWithList needle (b :: bs) || containsSub needle bs

/-- Case-insensitive unanchored substring test, modelling
`Series.str.contains(frag, case=False)` on the literal fragments used by
the program (`"Tripic"`, `"Cartagena"` contain no regex metacharacters). -/
def containsCI (hay frag : String) : Bool :=
  containsSub (lowerChars frag.data) (lowerChars hay.data)

/-! ### Dates — modelling `pd.to_datetime(errors='coerce')` on ISO strings -/

/-- A parsed calendar date (the `Date Object` column). -/
structure Date where
  year : Nat
  month : Nat
  day : Nat
deriving DecidableEq, Repr

/-- Gregorian leap year test. -/
def isLeap (y : Nat) : Bool := (y % 4 == 0 && y % 100 != 0) || (y % 400 == 0)

/-- Days in a month, used to validate day-of-month like the pandas parser. -/
def daysInMonth (y m : Nat) : Nat :=
  if m = 2 then (if isLeap y then 29 else 28)
  else if m = 4 ∨ m = 6 ∨ m = 9 ∨ m = 11 then 30
  else 31

/-- `parseDate` models `pd.to_datetime(s, errors='coerce')` restricted to
ISO `YYYY-MM-DD` input: surrounding whitespace is ignored, the three
dash-separated components must be digit strings, and month/day are
validated against the calendar; anything else coerces to `NaT` (`none`). -/
def parseDate (s : String) : Option Date :=
  match splitOnChar '-' (trimChars s.data) with
  | [y, m, d] =>
    if allDigits y && !y.isEmpty && allDigits m && !m.isEmpty && allDigits d && !d.isEmpty then
      let yn := digitsVal y
      let mn := digitsVal m
      let dn := digitsVal d
      if 1 ≤ mn ∧ mn ≤ 12 ∧ 1 ≤ dn ∧ dn ≤ daysInMonth yn mn then some ⟨yn, mn, dn⟩
      else none
    else none
  | _ => none

/-- Fixed month-name table, exactly the `month_order` list of the program
(which is also what `strftime('%B')` produces). -/
def monthOrder : List String :=
  ["January", "February", "March", "April", "May", "June", "July",
   "August", "September", "October", "November", "December"]

/-- `Month_Name` column: `strftime('%B')` of a parsed date. -/
def monthNameOf (d : Date) : String := monthOrder.getD (d.month - 1) ""

/-- Sort key of the month selector:
`month_order.index(x) if x in month_order else 99`. -/
def monthIdx (m : String) : Nat :=
  match monthOrder.findIdx? (· == m) with
  | some i => i
  | none => 99

/-! ### Amounts — modelling line 59 of `finance.py`:
`pd.to_numeric(df['Amount'].astype(str).str.replace('$','').str.replace(',',''), errors='coerce')`.
Modern pandas `str.replace` is literal (`regex=False`), so every `'$'`
and every `','` is removed, wherever it occurs. -/

/-- Remove every `$` and every `,` character (the two `str.replace` calls). -/
def stripMoney (s : String) : List Char :=
  s.data.filter (fun c => !(c == '$') && !(c == ','))

/-- Unsigned decimal literal: digits, optionally with one dot, at least one
digit overall (`"12"`, `"12.5"`, `"12."`, `".5"`). -/
def parseUnsigned (cs : List Char) : Option ℚ :=
  match splitOnChar '.' cs with
  | [w] => if allDigits w && !w.isEmpty then some (digitsVal w) else none
  | [w, f] =>
    if allDigits w && allDigits f && !(w.isEmpty && f.isEmpty) then
      some ((digitsVal w : ℚ) + (digitsVal f : ℚ) / (10 : ℚ) ^ f.length)
    else none
  | _ => none

/-- Signed decimal parse of a cleaned string, modelling the numeric
conversion done by `pd.to_numeric(errors='coerce')` (whitespace tolerated,
optional sign, plain decimal forms; failure coerces to `NaN` = `none`). -/
def parseDecimal (cs : List Char) : Option ℚ :=
  match trimChars cs with
  | '-' :: rest => (parseUnsigned rest).map (fun q => -q)
  | '+' :: rest => parseUnsigned rest
  | t => parseUnsigned t

/-- The whole `Amount` conversion of line 59. -/
def parseAmount (s : String) : Option ℚ := parseDecimal (stripMoney s)

/-- Modelled from the spec, not the source: the reading of amount parsing
in which "at most one `$` is removed and only when it is the leading
character" (plus all `,` removed).  Stated solely for comparison with the
source-derived `parseAmount` in the refinement claim about `$` stripping. -/
def parseAmountOneLeading (s : String) : Option ℚ :=
  let noDollar :=
    match s.data with
    | '$' :: rest => rest
    | cs => cs
  parseDecimal (noDollar.filter (fun c => !(c == ',')))

/-! ### Records and normalization (lines 54–64) -/

/-- One normalized row: original `Date` string, parsed `Date Object`,
`Sender`, converted `Amount` (`none` = `NaN`), `Doctor`. -/
structure PaymentRecord where
  dateStr : String
  dateObj : Date
  sender : String
  amount : Option ℚ
  doctor : String
deriving DecidableEq, Repr

/-- Derived `Year` column. -/
def PaymentRecord.year (r : PaymentRecord) : Nat := r.dateObj.year

/-- Derived `Month_Name` column. -/
def PaymentRecord.monthName (r : PaymentRecord) : String := monthNameOf r.dateObj

/-- Column lookup by (trimmed) header name, modelling `df['Name']` after
`cleaned_headers = [h.strip() for h in headers]`; `none` is a `KeyError`. -/
def colIdx (headers : List String) (name : String) : Option Nat :=
  (headers.map strTrim).findIdx? (· == name)

/-- Build the record of one raw row given the four column positions
(lines 55–59): drop the row when its date does not parse. -/
def toRecord (di si ai doi : Nat) (row : List String) : Option PaymentRecord :=
  (parseDate (row.getD di "")).map (fun d =>
    { dateStr := row.getD di ""
      dateObj := d
      sender := row.getD si ""
      amount := parseAmount (row.getD ai "")
      doctor := row.getD doi "" })

/-- Normalization, lines 54–59: first drop rows whose trimmed `Date` is
empty (line 54), then drop rows whose date fails to parse (lines 55–56),
converting `Amount` on the survivors (line 59). -/
def normalize (di si ai doi : Nat) (rows : List (List String)) : List PaymentRecord :=
  (rows.filter (fun row => strTrim (row.getD di "") != "")).filterMap (toRecord di si ai doi)

/-! ### Aggregation (lines 80–82, 114) -/

/-- `Series.sum()` with pandas' default `skipna=True`: `NaN` contributes 0,
the empty sum is 0. -/
def sumAmount (recs : List PaymentRecord) : ℚ :=
  (recs.map (fun r => r.amount.getD 0)).sum

/-- Doctor-category total (lines 81–82): sum over the rows whose `Doctor`
contains the fragment as a case-insensitive substring. -/
def doctorTotal (recs : List PaymentRecord) (frag : String) : ℚ :=
  sumAmount (recs.filter (fun r => containsCI r.doctor frag))

/-! ### View selection (lines 70–110) -/

/-- First-occurrence deduplication with an accumulator of already seen
values, modelling `Series.unique()` (order of first appearance). -/
def uniqueAux [DecidableEq α] (seen : List α) : List α → List α
  | [] => []
  | x :: xs => if x ∈ seen then uniqueAux seen xs else x :: uniqueAux (x :: seen) xs

/-- `Series.unique()`. -/
def uniqueList [DecidableEq α] (l : List α) : List α := uniqueAux [] l

/-- Stable insertion of `x` into `l` before the first element `y` with
`le x y`. -/
def insertLe (le : α → α → Bool) (x : α) : List α → List α
  | [] => [x]
  | y :: ys => if le x y then x :: y :: ys else y :: insertLe le x ys

/-- Stable sort by the boolean preorder `le` (models Python's stable
`list.sort(key=...)`; also used where the source sorts with pandas, where
only the resulting membership matters to the claims). -/
def sortBy (le : α → α → Bool) : List α → List α
  | [] => []
  | x :: xs => insertLe le x (sortBy le xs)

/-- `sorted(df['Year'].unique(), reverse=True)` (line 70). -/
def availableYears (recs : List PaymentRecord) : List Nat :=
  sortBy (fun a b => decide (b ≤ a)) (uniqueList (recs.map PaymentRecord.year))

/-- `year_df = df[df['Year'] == selected_year]` (line 74).  The selected
year is `none` when the year selectbox had no options; comparing with
`None` matches no row, giving the empty frame. -/
def yearRecsOpt (recs : List PaymentRecord) : Option Nat → List PaymentRecord
  | none => []
  | some y => recs.filter (fun r => r.year == y)

/-- Year filter for a definite year. -/
def yearRecs (recs : List PaymentRecord) (y : Nat) : List PaymentRecord :=
  recs.filter (fun r => r.year == y)

/-- Lines 97–100: the distinct `Month_Name` values of the selected year's
rows, stably sorted by calendar month index. -/
def availableMonths (recs : List PaymentRecord) (y : Nat) : List String :=
  sortBy (fun a b => decide (monthIdx a ≤ monthIdx b))
    (uniqueList ((yearRecs recs y).map PaymentRecord.monthName))

/-- Line 102: `view_options = ["All Months"] + available_months`. -/
def viewOptions (recs : List PaymentRecord) (y : Nat) : List String :=
  "All Months" :: availableMonths recs y

/-- Lines 106–110: the displayed record set for a month selection. -/
def displayRecs (recs : List PaymentRecord) (oy : Option Nat) (sel : String) :
    List PaymentRecord :=
  if sel = "All Months" then yearRecsOpt recs oy
  else (yearRecsOpt recs oy).filter (fun r => r.monthName == sel)

/-- Date comparison for the table sort. -/
def dateLe (a b : Date) : Bool :=
  decide (a.year < b.year ∨ (a.year = b.year ∧
    (a.month < b.month ∨ (a.month = b.month ∧ a.day ≤ b.day))))

/-- `display_df.sort_values(by="Date Object", ascending=False)` (line 121);
the source's quicksort leaves tie order unspecified, and the claims only
use membership, which any reordering preserves. -/
def sortByDateDesc (recs : List PaymentRecord) : List PaymentRecord :=
  sortBy (fun a b => dateLe b.dateObj a.dateObj) recs

/-! ### The whole run (`main`, lines 39–130) -/

/-- One rendered element, in the order `main` emits them.  `title` and
`summary` carry their data structurally (the f-string wrappers are
presentation); a `none` year renders Python's `None`. -/
inductive Render where
  | errorMsg (msg : String)
  | infoMsg (msg : String)
  | title (oy : Option Nat)
  | metric (label : String) (value : ℚ)
  | summary (sel : String) (oy : Option Nat) (total : ℚ)
  | table (recs : List PaymentRecord)
deriving DecidableEq, Repr

/-- How the run ends: normally, via `st.stop()` after `st.error` (the
handled `except` branch of lines 46–50), or with an uncaught `KeyError`
on a missing column. -/
inductive Terminal where
  | ok
  | stopped
  | keyError (col : String)
deriving DecidableEq, Repr

/-- Everything the user observes from one run. -/
structure RunResult where
  renders : List Render
  terminal : Terminal
deriving DecidableEq, Repr

/-- A selectbox with options `opts` and user choice `i` (first option is
the default; `none` when there are no options, as streamlit returns). -/
def selectOpt (opts : List α) (i : Nat) : Option α :=
  match opts with
  | [] => none
  | h :: _ => some (opts.getD i h)

/-- The body of `main` (lines 46–127), as a function of the fetched data
(`Except.error` = the exception of the `try` around `get_data`) and the
user's year/month selectbox choices.  Column accesses happen in source
order — `Date` (54), `Amount` (59), `Doctor` (81), `Sender` (121) — and a
missing column raises at that point, keeping whatever was already
rendered.  The `Sender`/`Doctor` positions default to 0 while unresolved;
those record fields are only observed in branches where the lookup
succeeded, mirroring pandas' lazy column access. -/
def runMain (fetch : Except String (List String × List (List String)))
    (yIdx mIdx : Nat) : RunResult :=
  match fetch with
  | .error e => ⟨[.errorMsg ("Error reading sheet: " ++ e)], .stopped⟩
  | .ok (headers, rows) =>
    if rows.isEmpty then ⟨[.infoMsg "Sheet is connected, but empty."], .ok⟩
    else
      match colIdx headers "Date" with
      | none => ⟨[], .keyError "Date"⟩
      | some di =>
        match colIdx headers "Amount" with
        | none => ⟨[], .keyError "Amount"⟩
        | some ai =>
          let si := (colIdx headers "Sender").getD 0
          let doi := (colIdx headers "Doctor").getD 0
          let recs := normalize di si ai doi rows
          let oy := selectOpt (availableYears recs) yIdx
          let yr := yearRecsOpt recs oy
          match colIdx headers "Doctor" with
          | none => ⟨[.title oy], .keyError "Doctor"⟩
          | some _ =>
            let opts := "All Months" :: sortBy (fun a b => decide (monthIdx a ≤ monthIdx b))
              (uniqueList (yr.map PaymentRecord.monthName))
            let sel := opts.getD mIdx "All Months"
            let disp := if sel = "All Months" then yr
              else yr.filter (fun r => r.monthName == sel)
            let base := [Render.title oy,
              .metric "Yearly Total" (sumAmount yr),
              .metric "Dr. Tripic (Year)" (doctorTotal yr "Tripic"),
              .metric "Dr. Cartagena (Year)" (doctorTotal yr "Cartagena"),
              .summary sel oy (sumAmount disp)]
            match colIdx headers "Sender" with
            | none => ⟨base, .keyError "Sender"⟩
            | some _ => ⟨base ++ [.table (sortByDateDesc disp)], .ok⟩

/-! ### Helper lemmas: `insertLe` / `sortBy` -/

theorem perm_insertLe (le : α → α → Bool) (x : α) (l : List α) :
    (insertLe le x l).Perm (x :: l) := by
  induction l with
  | nil => simp [insertLe]
  | cons y ys ih =>
    by_cases h : le x y
    · simp [insertLe, h]
    · simp only [insertLe, h, if_neg, Bool.false_eq_true, not_false_eq_true, ite_false]
      exact ((ih.cons y).trans (List.Perm.swap x y ys))

theorem perm_sortBy (le : α → α → Bool) (l : List α) : (sortBy le l).Perm l := by
  induction l with
  | nil => simp [sortBy]
  | cons x xs ih => exact (perm_insertLe le x (sortBy le xs)).trans (ih.cons x)

theorem mem_sortBy (le : α → α → Bool) (l : List α) (a : α) :
    a ∈ sortBy le l ↔ a ∈ l :=
  (perm_sortBy le l).mem_iff

theorem nodup_sortBy (le : α → α → Bool) (l : List α) (h : l.Nodup) :
    (sortBy le l).Nodup :=
  (perm_sortBy le l).nodup_iff.mpr h

theorem mem_insertLe (le : α → α → Bool) (x : α) (l : List α) (a : α) :
    a ∈ insertLe le x l ↔ a = x ∨ a ∈ l := by
  rw [(perm_insertLe le x l).mem_iff, List.mem_cons]

theorem pairwise_insertLe (le : α → α → Bool)
    (htot : ∀ a b, le a b = true ∨ le b a = true)
    (htrans : ∀ a b c, le a b = true → le b c = true → le a c = true)
    (x : α) (l : List α) (h : l.Pairwise (fun a b => le a b = true)) :
    (insertLe le x l).Pairwise (fun a b => le a b = true) := by
  induction l with
  | nil => simp [insertLe]
  | cons y ys ih =>
    rcases h with - | ⟨hy, hys⟩
    by_cases hxy : le x y
    · simp only [insertLe, hxy, ite_true]
      refine List.Pairwise.cons ?_ (List.Pairwise.cons hy hys)
      intro b hb
      rcases List.mem_cons.mp hb with rfl | hb
      · exact hxy
      · exact htrans x y b hxy (hy b hb)
    · simp only [insertLe, hxy, Bool.false_eq_true, not_false_eq_true, ite_false]
      refine List.Pairwise.cons ?_ (ih hys)
      intro b hb
      rcases (mem_insertLe le x ys b).mp hb with rfl | hb
      · rcases htot b y with hby | hyb
        · exact absurd hby hxy
        · exact hyb
      · exact hy b hb

theorem pairwise_sortBy (le : α → α → Bool)
    (htot : ∀ a b, le a b = true ∨ le b a = true)
    (htrans : ∀ a b c, le a b = true → le b c = true → le a c = true)
    (l : List α) : (sortBy le l).Pairwise (fun a b => le a b = true) := by
  induction l with
  | nil => simp [sortBy]
  | cons x xs ih => exact pairwise_insertLe le htot htrans x (sortBy le xs) ih

/-! ### Helper lemmas: `uniqueList` -/

theorem mem_uniqueAux [DecidableEq α] (seen : List α) (l : List α) (a : α) :
    a ∈ uniqueAux seen l ↔ a ∈ l ∧ a ∉ seen := by
  induction l generalizing seen with
  | nil => simp [uniqueAux]
  | cons x xs ih =>
    by_cases hx : x ∈ seen
    · rw [uniqueAux, if_pos hx, ih]
      constructor
      · rintro ⟨h1, h2⟩; exact ⟨List.mem_cons_of_mem x h1, h2⟩
      · rintro ⟨h1, h2⟩
        rcases List.mem_cons.mp h1 with rfl | h1
        · exact absurd hx h2
        · exact ⟨h1, h2⟩
    · rw [uniqueAux, if_neg hx]
      constructor
      · intro h
        rcases List.mem_cons.mp h with rfl | h'
        · exact ⟨List.mem_cons_self a xs, hx⟩
        · obtain ⟨h1, h2⟩ := (ih (x :: seen)).mp h'
          exact ⟨List.mem_cons_of_mem x h1,
            fun hs => h2 (List.mem_cons_of_mem x hs)⟩
      · rintro ⟨h1, h2⟩
        rcases List.mem_cons.mp h1 with rfl | h1
        · exact List.mem_cons_self a _
        · by_cases hax : a = x
          · subst hax; exact List.mem_cons_self a _
          · refine List.mem_cons_of_mem x ((ih (x :: seen)).mpr ⟨h1, ?_⟩)
            intro hc
            rcases List.mem_cons.mp hc with h | h
            · exact hax h
            · exact h2 h

theorem nodup_uniqueAux [DecidableEq α] (seen : List α) (l : List α) :
    (uniqueAux seen l).Nodup := by
  induction l generalizing seen with
  | nil => simp [uniqueAux]
  | cons x xs ih =>
    by_cases hx : x ∈ seen
    · rw [uniqueAux, if_pos hx]; exact ih seen
    · rw [uniqueAux, if_neg hx]
      refine List.Nodup.cons ?_ (ih (x :: seen))
      intro hmem
      exact ((mem_uniqueAux (x :: seen) xs x).mp hmem).2 (List.mem_cons_self x seen)

theorem mem_uniqueList [DecidableEq α] (l : List α) (a : α) :
    a ∈ uniqueList l ↔ a ∈ l := by
  rw [uniqueList, mem_uniqueAux]
  simp

theorem nodup_uniqueList [DecidableEq α] (l : List α) : (uniqueList l).Nodup :=
  nodup_uniqueAux [] l

/-! ### Helper lemmas: substring search -/

theorem startsWithList_iff (n h : List Char) :
    startsWithList n h = true ↔ ∃ v, h = n ++ v := by
  induction n generalizing h with
  | nil => simp [startsWithList]
  | cons a as ih =>
    cases h with
    | nil =>
      simp only [startsWithList, Bool.false_eq_true, false_iff]
      rintro ⟨v, hv⟩
      exact List.cons_ne_nil a (as ++ v) hv.symm
    | cons b bs =>
      simp only [startsWithList, Bool.and_eq_true, beq_iff_eq, ih]
      constructor
      · rintro ⟨rfl, v, rfl⟩; exact ⟨v, rfl⟩
      · rintro ⟨v, hv⟩
        rw [List.cons_append] at hv
        injection hv with h1 h2
        exact ⟨h1.symm, v, h2⟩

theorem containsSub_iff (n h : List Char) :
    containsSub n h = true ↔ ∃ u v, h = u ++ n ++ v := by
  induction h with
  | nil =>
    simp only [containsSub, List.isEmpty_iff]
    constructor
    · rintro rfl; exact ⟨[], [], rfl⟩
    · rintro ⟨u, v, huv⟩
      rcases List.append_eq_nil.mp huv.symm with ⟨h1, h2⟩
      exact (List.append_eq_nil.mp h1).2
  | cons b bs ih =>
    simp only [containsSub, Bool.or_eq_true, startsWithList_iff, ih]
    constructor
    · rintro (⟨v, hv⟩ | ⟨u, v, huv⟩)
      · exact ⟨[], v, by simpa using hv⟩
      · exact ⟨b :: u, v, by simp [huv]⟩
    · rintro ⟨u, v, huv⟩
      cases u with
      | nil => exact Or.inl ⟨v, by simpa using huv⟩
      | cons c cs =>
        rw [List.cons_append, List.cons_append] at huv
        injection huv with h1 h2
        exact Or.inr ⟨cs, v, by simp [h2]⟩

/-! ### Helper lemmas: normalization and sums -/

theorem normalize_append (di si ai doi : Nat) (l₁ l₂ : List (List String)) :
    normalize di si ai doi (l₁ ++ l₂) =
      normalize di si ai doi l₁ ++ normalize di si ai doi l₂ := by
  simp [normalize, List.filter_append, List.filterMap_append]

theorem normalize_length_le (di si ai doi : Nat) (rows : List (List String)) :
    (normalize di si ai doi rows).length ≤ rows.length :=
  le_trans (List.length_filterMap_le _ _) (List.length_filter_le _ _)

theorem parseDate_none_of_trim_empty {s : String} (h : strTrim s = "") :
    parseDate s = none := by
  have hd : trimChars s.data = [] := congrArg String.data h
  simp [parseDate, hd, splitOnChar]

theorem normalize_singleton_none (di si ai doi : Nat) (row : List String)
    (h : strTrim (row.getD di "") = "" ∨ parseDate (row.getD di "") = none) :
    normalize di si ai doi [row] = [] := by
  rcases h with h | h
  · rw [List.getD_eq_getElem?_getD] at h
    simp [normalize, h]
  · by_cases ht : strTrim (row.getD di "") = ""
    · rw [List.getD_eq_getElem?_getD] at ht
      simp [normalize, ht]
    · rw [List.getD_eq_getElem?_getD] at ht h
      simp [normalize, ht, toRecord, h]

theorem normalize_singleton_some (di si ai doi : Nat) (row : List String) (d : Date)
    (h : parseDate (row.getD di "") = some d) :
    normalize di si ai doi [row] =
      [⟨row.getD di "", d, row.getD si "",
        parseAmount (row.getD ai ""), row.getD doi ""⟩] := by
  have ht : strTrim (row.getD di "") ≠ "" := by
    intro hc
    rw [parseDate_none_of_trim_empty hc] at h
    exact Option.noConfusion h
  rw [List.getD_eq_getElem?_getD] at ht h
  simp [normalize, List.getD_eq_getElem?_getD, ht, toRecord, h]

theorem sumAmount_append (l₁ l₂ : List PaymentRecord) :
    sumAmount (l₁ ++ l₂) = sumAmount l₁ + sumAmount l₂ := by
  simp [sumAmount]

theorem sumAmount_cons (r : PaymentRecord) (l : List PaymentRecord) :
    sumAmount (r :: l) = r.amount.getD 0 + sumAmount l := by
  simp [sumAmount]

theorem doctorTotal_append (l₁ l₂ : List PaymentRecord) (frag : String) :
    doctorTotal (l₁ ++ l₂) frag = doctorTotal l₁ frag + doctorTotal l₂ frag := by
  simp [doctorTotal, List.filter_append, sumAmount_append]

theorem yearRecsOpt_append (l₁ l₂ : List PaymentRecord) (oy : Option Nat) :
    yearRecsOpt (l₁ ++ l₂) oy = yearRecsOpt l₁ oy ++ yearRecsOpt l₂ oy := by
  cases oy <;> simp [yearRecsOpt, List.filter_append]

theorem displayRecs_append (l₁ l₂ : List PaymentRecord) (oy : Option Nat) (sel : String) :
    displayRecs (l₁ ++ l₂) oy sel = displayRecs l₁ oy sel ++ displayRecs l₂ oy sel := by
  rw [displayRecs, displayRecs, displayRecs, yearRecsOpt_append]
  split <;> simp [List.filter_append]

theorem displayRecs_all (recs : List PaymentRecord) (oy : Option Nat) :
    displayRecs recs oy "All Months" = yearRecsOpt recs oy := by
  simp [displayRecs]

theorem displayRecs_month (recs : List PaymentRecord) (oy : Option Nat) {sel : String}
    (h : sel ≠ "All Months") :
    displayRecs recs oy sel = (yearRecsOpt recs oy).filter (fun r => r.monthName == sel) := by
  simp [displayRecs, h]

/-! ### Helper lemmas: month names and the month selector -/

theorem monthOrder_getD_ne_allMonths (n : Nat) : monthOrder.getD n "" ≠ "All Months" := by
  rcases Nat.lt_or_ge n 12 with h | h
  · interval_cases n <;> decide
  · rw [List.getD_eq_default]
    · decide
    · simpa [monthOrder] using h

theorem monthNameOf_ne_allMonths (d : Date) : monthNameOf d ≠ "All Months" :=
  monthOrder_getD_ne_allMonths (d.month - 1)

theorem mem_availableMonths (recs : List PaymentRecord) (y : Nat) (m : String) :
    m ∈ availableMonths recs y ↔
      ∃ r, r ∈ yearRecs recs y ∧ r.monthName = m := by
  rw [availableMonths, mem_sortBy, mem_uniqueList, List.mem_map]

theorem nodup_availableMonths (recs : List PaymentRecord) (y : Nat) :
    (availableMonths recs y).Nodup :=
  nodup_sortBy _ _ (nodup_uniqueList _)

theorem pairwise_availableMonths (recs : List PaymentRecord) (y : Nat) :
    (availableMonths recs y).Pairwise (fun a b => monthIdx a ≤ monthIdx b) := by
  have h := pairwise_sortBy (fun a b => decide (monthIdx a ≤ monthIdx b))
    (fun a b => by
      rcases Nat.le_total (monthIdx a) (monthIdx b) with h | h
      · exact Or.inl (decide_eq_true h)
      · exact Or.inr (decide_eq_true h))
    (fun a b c hab hbc =>
      decide_eq_true (Nat.le_trans (of_decide_eq_true hab) (of_decide_eq_true hbc)))
    (uniqueList ((yearRecs recs y).map PaymentRecord.monthName))
  exact h.imp (fun hd => of_decide_eq_true hd)

theorem availableMonths_ne_allMonths (recs : List PaymentRecord) (y : Nat) {m : String}
    (h : m ∈ availableMonths recs y) : m ≠ "All Months" := by
  obtain ⟨r, -, rfl⟩ := (mem_availableMonths recs y m).mp h
  exact monthNameOf_ne_allMonths r.dateObj

/-! ### Helper lemmas: partition of a sum by a key -/

theorem sum_map_add (f g : α → ℚ) (l : List α) :
    (l.map (fun x => f x + g x)).sum = (l.map f).sum + (l.map g).sum := by
  induction l with
  | nil => simp
  | cons a t ih => simp only [List.map_cons, List.sum_cons, ih]; ring

theorem sum_map_ite_eq {β : Type} [DecidableEq β] (k : β) (c : ℚ) (ms : List β)
    (hn : ms.Nodup) (hk : k ∈ ms) :
    (ms.map (fun m => if k = m then c else 0)).sum = c := by
  induction ms with
  | nil => cases hk
  | cons m t ih =>
    rcases List.mem_cons.mp hk with rfl | hk'
    · have hz : (t.map (fun m' => if k = m' then c else 0)).sum = 0 := by
        apply List.sum_eq_zero
        intro x hx
        obtain ⟨m', hm', rfl⟩ := List.mem_map.mp hx
        rw [if_neg]
        rintro rfl
        exact (List.nodup_cons.mp hn).1 hm'
      simp [hz]
    · have hkm : k ≠ m := by
        rintro rfl
        exact (List.nodup_cons.mp hn).1 hk'
      simp only [List.map_cons, List.sum_cons, if_neg hkm, zero_add]
      exact ih (List.nodup_cons.mp hn).2 hk'

theorem sum_partition {β : Type} [DecidableEq β] (key : α → β) (f : α → ℚ)
    (ms : List β) (hn : ms.Nodup) (l : List α) (hcov : ∀ a ∈ l, key a ∈ ms) :
    (ms.map (fun m => ((l.filter (fun a => key a == m)).map f).sum)).sum
      = (l.map f).sum := by
  induction l with
  | nil =>
    simp only [List.filter_nil, List.map_nil, List.sum_nil]
    exact List.sum_eq_zero (by intro x hx; obtain ⟨m, -, rfl⟩ := List.mem_map.mp hx; rfl)
  | cons a t ih =>
    have hfa : ∀ m : β, (((a :: t).filter (fun x => key x == m)).map f).sum
        = (if key a = m then f a else 0)
          + ((t.filter (fun x => key x == m)).map f).sum := by
      intro m
      rw [List.filter_cons]
      by_cases h : key a = m
      · simp [h]
      · simp [h]
    have hmap : ms.map (fun m => (((a :: t).filter (fun x => key x == m)).map f).sum)
        = ms.map (fun m => (if key a = m then f a else 0)
            + ((t.filter (fun x => key x == m)).map f).sum) :=
      List.map_congr_left (fun m _ => hfa m)
    rw [hmap, sum_map_add, sum_map_ite_eq (key a) (f a) ms hn (hcov a (List.mem_cons_self a t)),
      ih (fun x hx => hcov x (List.mem_cons_of_mem a hx))]
    simp

theorem stripMoney_append (u v : String) :
    stripMoney (u ++ v) = stripMoney u ++ stripMoney v := by
  have h : (u ++ v).data = u.data ++ v.data := by cases u; cases v; rfl
  simp [stripMoney, h, List.filter_append]

theorem mem_of_mem_displayRecs {recs : List PaymentRecord} {oy : Option Nat}
    {sel : String} {r : PaymentRecord} (h : r ∈ displayRecs recs oy sel) : r ∈ recs := by
  have hy : ∀ x : PaymentRecord, x ∈ yearRecsOpt recs oy → x ∈ recs := by
    intro x hx
    cases oy with
    | none => cases hx
    | some y => exact (List.mem_filter.mp hx).1
  rw [displayRecs] at h
  split at h
  · exact hy r h
  · exact hy r (List.mem_filter.mp h).1

theorem doctorTotal_single_none {r : PaymentRecord} (hr : r.amount = none)
    (frag : String) : doctorTotal [r] frag = 0 := by
  by_cases hc : containsCI r.doctor frag <;>
    simp [doctorTotal, List.filter_cons, hc, sumAmount, hr]

theorem sumAmount_displayRecs_single_none {r : PaymentRecord} (hr : r.amount = none)
    (oy : Option Nat) (sel : String) : sumAmount (displayRecs [r] oy sel) = 0 := by
  apply List.sum_eq_zero
  intro x hx
  obtain ⟨p, hp, rfl⟩ := List.mem_map.mp hx
  have hpr : p = r := List.mem_singleton.mp (mem_of_mem_displayRecs hp)
  subst hpr
  rw [hr]
  rfl

theorem getD_singleton_default (a : α) (i : Nat) : ([a] : List α).getD i a = a := by
  cases i with
  | zero => rfl
  | succ n => simp [List.getD]

theorem isEmpty_eq_false_of_ne_nil {l : List α} (h : l ≠ []) : l.isEmpty = false := by
  cases l with
  | nil => exact absurd rfl h
  | cons x xs => rfl

/-! ### The claims -/

/-- C1: normalization keeps exactly the raw rows whose `Date` field, after
trimming, is non-empty and parses as a date.  Normalization acts row by
row and concatenates the per-row results in input order; a row whose
`Date` is empty or unparseable yields no record, any other row yields
exactly its record, and the output is never longer than the input. -/
theorem C1_normalization_filters_by_date (di si ai doi : Nat)
    (rows pre post : List (List String)) (row : List String) :
    (normalize di si ai doi rows).length ≤ rows.length ∧
    normalize di si ai doi (pre ++ post)
      = normalize di si ai doi pre ++ normalize di si ai doi post ∧
    (strTrim (row.getD di "") = "" ∨ parseDate (row.getD di "") = none →
      normalize di si ai doi [row] = []) ∧
    (∀ d : Date, parseDate (row.getD di "") = some d →
      normalize di si ai doi [row]
        = [⟨row.getD di "", d, row.getD si "",
            parseAmount (row.getD ai ""), row.getD doi ""⟩]) :=
  ⟨normalize_length_le di si ai doi rows,
   normalize_append di si ai doi pre post,
   normalize_singleton_none di si ai doi row,
   fun d h => normalize_singleton_some di si ai doi row d h⟩

/-- Witness for C1 at the spec's end-to-end rows: the empty-date row is
dropped and a valid row is kept as its record. -/
theorem C1_normalization_filters_by_date_witness :
    normalize 0 1 2 3 [["", "Carl", "30", "Dr. Tripic"]] = [] ∧
    normalize 0 1 2 3 [["2025-11-15", "Bob", "50", "Dr. Cartagena"]]
      = [⟨"2025-11-15", ⟨2025, 11, 15⟩, "Bob", parseAmount "50", "Dr. Cartagena"⟩] :=
  ⟨(C1_normalization_filters_by_date 0 1 2 3 [] [] []
      ["", "Carl", "30", "Dr. Tripic"]).2.2.1 (Or.inl (by decide)),
   (C1_normalization_filters_by_date 0 1 2 3 [] [] []
      ["2025-11-15", "Bob", "50", "Dr. Cartagena"]).2.2.2 ⟨2025, 11, 15⟩ (by decide)⟩

/-- C2: amount parsing removes all `$` and `,` characters and parses the
rest as a decimal — `"$1,234.56"` and `"1234.56"` both give `1234.56`,
empty or non-numeric strings give the missing value — and a missing
amount contributes 0 to every sum the Aggregator computes (plain sums and
doctor-category sums alike). -/
theorem C2_amount_parsing_and_missing_zero (s : String) :
    parseAmount s = parseDecimal (stripMoney s) ∧
    parseAmount "$1,234.56" = some (1234.56 : ℚ) ∧
    parseAmount "1234.56" = some (1234.56 : ℚ) ∧
    parseAmount "" = none ∧
    parseAmount "abc" = none ∧
    (∀ (pre post : List PaymentRecord) (r : PaymentRecord), r.amount = none →
      sumAmount (pre ++ r :: post) = sumAmount (pre ++ post) ∧
      ∀ frag, doctorTotal (pre ++ r :: post) frag = doctorTotal (pre ++ post) frag) := by
  refine ⟨rfl, ?_, ?_, rfl, by decide, ?_⟩
  · have h : parseAmount "$1,234.56" = some ((1234 : ℚ) + (56 : ℚ) / 10 ^ 2) := rfl
    rw [h]; norm_num
  · have h : parseAmount "1234.56" = some ((1234 : ℚ) + (56 : ℚ) / 10 ^ 2) := rfl
    rw [h]; norm_num
  · intro pre post r hr
    constructor
    · simp [sumAmount, hr]
    · intro frag
      by_cases hc : containsCI r.doctor frag
      · simp [doctorTotal, List.filter_append, List.filter_cons, hc, sumAmount, hr]
      · simp [doctorTotal, List.filter_append, List.filter_cons, hc, sumAmount]

/-- Witness for C2: a record with a missing amount leaves both the plain
sum and a doctor total unchanged. -/
theorem C2_amount_parsing_and_missing_zero_witness :
    sumAmount [(⟨"", ⟨2025, 1, 1⟩, "A", none, "Dr. Tripic"⟩ : PaymentRecord)]
      = sumAmount ([] : List PaymentRecord) ∧
    doctorTotal [(⟨"", ⟨2025, 1, 1⟩, "A", none, "Dr. Tripic"⟩ : PaymentRecord)] "Tripic"
      = doctorTotal ([] : List PaymentRecord) "Tripic" :=
  ⟨((C2_amount_parsing_and_missing_zero "").2.2.2.2.2 [] []
      ⟨"", ⟨2025, 1, 1⟩, "A", none, "Dr. Tripic"⟩ rfl).1,
   ((C2_amount_parsing_and_missing_zero "").2.2.2.2.2 [] []
      ⟨"", ⟨2025, 1, 1⟩, "A", none, "Dr. Tripic"⟩ rfl).2 "Tripic"⟩

/-- C4 counterexample: the code removes every `$`, not just one leading
one — `"1$2"` (a `$` that is not leading) parses to `12` and `"$$5"` (two
`$`) parses to `5`, while the claimed one-leading-`$` rule would reject
both. -/
theorem C4_counterexample_inner_dollar_stripped :
    parseAmount "1$2" = some 12 ∧
    parseAmount "$$5" = some 5 ∧
    parseAmountOneLeading "1$2" = none ∧
    parseAmountOneLeading "$$5" = none := by
  decide

/-- C4 amended: amount parsing removes every `$` character wherever it
occurs (and likewise every `,`) before numeric conversion — inserting a
`$` or a `,` anywhere in the string never changes the parse result. -/
theorem C4_amended_all_dollars_removed (s t : String) :
    parseAmount (s ++ "$" ++ t) = parseAmount (s ++ t) ∧
    parseAmount (s ++ "," ++ t) = parseAmount (s ++ t) := by
  constructor
  · show parseDecimal (stripMoney (s ++ "$" ++ t)) = parseDecimal (stripMoney (s ++ t))
    rw [stripMoney_append, stripMoney_append, stripMoney_append]
    simp [show stripMoney "$" = [] from rfl]
  · show parseDecimal (stripMoney (s ++ "," ++ t)) = parseDecimal (stripMoney (s ++ t))
    rw [stripMoney_append, stripMoney_append, stripMoney_append]
    simp [show stripMoney "," = [] from rfl]

/-- C3: a date-valid row whose `Amount` fails to parse is not dropped —
its record is in the normalized set and in the displayed (sorted) table
of its year/month — while contributing zero to the grand total, every
doctor total, and every month total. -/
theorem C3_bad_amount_row_kept_zero_contribution (di si ai doi : Nat)
    (pre post : List (List String)) (row : List String) (d : Date)
    (hd : parseDate (row.getD di "") = some d)
    (ha : parseAmount (row.getD ai "") = none) :
    (⟨row.getD di "", d, row.getD si "", none, row.getD doi ""⟩ : PaymentRecord)
        ∈ normalize di si ai doi (pre ++ row :: post) ∧
    (⟨row.getD di "", d, row.getD si "", none, row.getD doi ""⟩ : PaymentRecord)
        ∈ sortByDateDesc (displayRecs (normalize di si ai doi (pre ++ row :: post))
            (some d.year) (monthNameOf d)) ∧
    sumAmount (normalize di si ai doi (pre ++ row :: post))
      = sumAmount (normalize di si ai doi (pre ++ post)) ∧
    (∀ frag, doctorTotal (normalize di si ai doi (pre ++ row :: post)) frag
      = doctorTotal (normalize di si ai doi (pre ++ post)) frag) ∧
    (∀ (oy : Option Nat) (sel : String),
      sumAmount (displayRecs (normalize di si ai doi (pre ++ row :: post)) oy sel)
        = sumAmount (displayRecs (normalize di si ai doi (pre ++ post)) oy sel)) := by
  have h1 : normalize di si ai doi [row]
      = [⟨row.getD di "", d, row.getD si "", none, row.getD doi ""⟩] := by
    rw [normalize_singleton_some di si ai doi row d hd, ha]
  have hsplit : normalize di si ai doi (pre ++ row :: post)
      = normalize di si ai doi pre
        ++ [⟨row.getD di "", d, row.getD si "", none, row.getD doi ""⟩]
        ++ normalize di si ai doi post := by
    have hps : pre ++ row :: post = pre ++ [row] ++ post := by simp
    rw [hps, normalize_append, normalize_append, h1]
  have hsplit' : normalize di si ai doi (pre ++ post)
      = normalize di si ai doi pre ++ normalize di si ai doi post :=
    normalize_append di si ai doi pre post
  refine ⟨?_, ?_, ?_, ?_, ?_⟩
  · simp [hsplit]
  · rw [sortByDateDesc, mem_sortBy,
      displayRecs_month _ _ (monthNameOf_ne_allMonths d)]
    apply List.mem_filter.mpr
    refine ⟨?_, by simp [PaymentRecord.monthName]⟩
    show _ ∈ yearRecsOpt _ (some d.year)
    apply List.mem_filter.mpr
    exact ⟨by simp [hsplit], by simp [PaymentRecord.year]⟩
  · rw [hsplit, hsplit', sumAmount_append, sumAmount_append, sumAmount_append]
    simp [sumAmount]
  · intro frag
    rw [hsplit, hsplit', doctorTotal_append, doctorTotal_append, doctorTotal_append]
    rw [doctorTotal_single_none rfl frag]
    ring
  · intro oy sel
    rw [hsplit, hsplit', displayRecs_append, displayRecs_append, displayRecs_append,
      sumAmount_append, sumAmount_append, sumAmount_append,
      sumAmount_displayRecs_single_none rfl oy sel]
    ring

/-- Witness for C3: a row with a valid date and the unparseable amount
`"oops"` is kept as a record and leaves the grand total unchanged. -/
theorem C3_bad_amount_row_kept_zero_contribution_witness :
    (⟨"2025-11-01", ⟨2025, 11, 1⟩, "Alice", none, "Dr. Tripic"⟩ : PaymentRecord)
        ∈ normalize 0 1 2 3 [["2025-11-01", "Alice", "oops", "Dr. Tripic"]] ∧
    sumAmount (normalize 0 1 2 3 [["2025-11-01", "Alice", "oops", "Dr. Tripic"]])
      = sumAmount (normalize 0 1 2 3 []) :=
  ⟨(C3_bad_amount_row_kept_zero_contribution 0 1 2 3 [] []
      ["2025-11-01", "Alice", "oops", "Dr. Tripic"] ⟨2025, 11, 1⟩
      (by decide) (by decide)).1,
   (C3_bad_amount_row_kept_zero_contribution 0 1 2 3 [] []
      ["2025-11-01", "Alice", "oops", "Dr. Tripic"] ⟨2025, 11, 1⟩
      (by decide) (by decide)).2.2.1⟩

/-- C5: `doctorTotal` sums the amounts of exactly the records whose
`Doctor` field contains the fragment as a case-insensitive, unanchored
substring; a single record for "Dr. Tripic Cartagena" with amount 100 is
counted in both the Tripic and the Cartagena subtotal, while the grand
total counts it once. -/
theorem C5_doctor_total_case_insensitive_substring :
    (∀ hay frag : String, containsCI hay frag = true ↔
      ∃ u v, lowerChars hay.data = u ++ lowerChars frag.data ++ v) ∧
    (∀ (recs : List PaymentRecord) (frag : String),
      doctorTotal recs frag
        = sumAmount (recs.filter (fun r => containsCI r.doctor frag))) ∧
    doctorTotal
      [(⟨"2025-01-01", ⟨2025, 1, 1⟩, "A", some 100, "Dr. Tripic Cartagena"⟩ :
        PaymentRecord)] "Tripic" = 100 ∧
    doctorTotal
      [(⟨"2025-01-01", ⟨2025, 1, 1⟩, "A", some 100, "Dr. Tripic Cartagena"⟩ :
        PaymentRecord)] "Cartagena" = 100 ∧
    sumAmount
      [(⟨"2025-01-01", ⟨2025, 1, 1⟩, "A", some 100, "Dr. Tripic Cartagena"⟩ :
        PaymentRecord)] = 100 := by
  refine ⟨fun hay frag => containsSub_iff _ _, fun recs frag => rfl, ?_, ?_, ?_⟩
  · have hc : containsCI "Dr. Tripic Cartagena" "Tripic" = true := by decide
    simp [doctorTotal, List.filter_cons, hc, sumAmount]
  · have hc : containsCI "Dr. Tripic Cartagena" "Cartagena" = true := by decide
    simp [doctorTotal, List.filter_cons, hc, sumAmount]
  · simp [sumAmount]

/-- C6: for every record set and year, "All Months" selects exactly the
union of the month-filtered subsets over that year's distinct months, and
its displayed total is the sum of the per-month totals. -/
theorem C6_all_months_union_and_sum (recs : List PaymentRecord) (y : Nat) :
    (∀ r, r ∈ displayRecs recs (some y) "All Months" ↔
      ∃ m, m ∈ availableMonths recs y ∧ r ∈ displayRecs recs (some y) m) ∧
    sumAmount (displayRecs recs (some y) "All Months")
      = ((availableMonths recs y).map
          (fun m => sumAmount (displayRecs recs (some y) m))).sum := by
  have hall : displayRecs recs (some y) "All Months" = yearRecs recs y :=
    displayRecs_all recs (some y)
  have hmonth : ∀ m ∈ availableMonths recs y,
      displayRecs recs (some y) m
        = (yearRecs recs y).filter (fun r => r.monthName == m) := by
    intro m hm
    rw [displayRecs_month recs (some y) (availableMonths_ne_allMonths recs y hm)]
    rfl
  constructor
  · intro r
    rw [hall]
    constructor
    · intro hr
      refine ⟨r.monthName, (mem_availableMonths recs y r.monthName).mpr ⟨r, hr, rfl⟩, ?_⟩
      rw [hmonth r.monthName ((mem_availableMonths recs y r.monthName).mpr ⟨r, hr, rfl⟩)]
      exact List.mem_filter.mpr ⟨hr, by simp⟩
    · rintro ⟨m, hm, hr⟩
      rw [hmonth m hm] at hr
      exact (List.mem_filter.mp hr).1
  · rw [hall]
    have hmap : (availableMonths recs y).map
        (fun m => sumAmount (displayRecs recs (some y) m))
        = (availableMonths recs y).map
          (fun m => (((yearRecs recs y).filter
            (fun r => r.monthName == m)).map (fun r => r.amount.getD 0)).sum) :=
      List.map_congr_left (fun m hm => by rw [hmonth m hm]; rfl)
    rw [hmap,
      sum_partition PaymentRecord.monthName (fun r => r.amount.getD 0)
        (availableMonths recs y) (nodup_availableMonths recs y) (yearRecs recs y)
        (fun r hr => (mem_availableMonths recs y r.monthName).mpr ⟨r, hr, rfl⟩)]
    rfl

/-- C7: the month selector of a selected year is "All Months" followed by
the distinct month names present in that year's records, without
duplicates, ordered by calendar month index (never alphabetically);
"All Months" selects the whole year and a month option filters the year's
records by equality on month name. -/
theorem C7_month_selector_calendar_order (recs : List PaymentRecord) (y : Nat) :
    viewOptions recs y = "All Months" :: availableMonths recs y ∧
    (availableMonths recs y).Nodup ∧
    (availableMonths recs y).Pairwise (fun a b => monthIdx a ≤ monthIdx b) ∧
    (∀ m, m ∈ availableMonths recs y ↔
      ∃ r, r ∈ yearRecs recs y ∧ r.monthName = m) ∧
    displayRecs recs (some y) "All Months" = yearRecs recs y ∧
    (∀ m, m ∈ availableMonths recs y →
      displayRecs recs (some y) m
        = (yearRecs recs y).filter (fun r => r.monthName == m)) := by
  refine ⟨rfl, nodup_availableMonths recs y, pairwise_availableMonths recs y,
    mem_availableMonths recs y, displayRecs_all recs (some y), ?_⟩
  intro m hm
  rw [displayRecs_month recs (some y) (availableMonths_ne_allMonths recs y hm)]
  rfl

/-- Witness for C7: with January, April and August 2025 present (inserted
out of order), the month options come back in calendar order — not the
alphabetical order April, August, January — and filtering by a listed
month selects exactly its records. -/
theorem C7_month_selector_calendar_order_witness :
    availableMonths
      [(⟨"", ⟨2025, 8, 2⟩, "A", none, "D"⟩ : PaymentRecord),
       ⟨"", ⟨2025, 1, 5⟩, "B", none, "D"⟩,
       ⟨"", ⟨2025, 4, 9⟩, "C", none, "D"⟩]
      2025 = ["January", "April", "August"] ∧
    displayRecs
      [(⟨"", ⟨2025, 8, 2⟩, "A", none, "D"⟩ : PaymentRecord),
       ⟨"", ⟨2025, 1, 5⟩, "B", none, "D"⟩,
       ⟨"", ⟨2025, 4, 9⟩, "C", none, "D"⟩]
      (some 2025) "April"
      = (yearRecs
          [(⟨"", ⟨2025, 8, 2⟩, "A", none, "D"⟩ : PaymentRecord),
           ⟨"", ⟨2025, 1, 5⟩, "B", none, "D"⟩,
           ⟨"", ⟨2025, 4, 9⟩, "C", none, "D"⟩] 2025).filter
          (fun r => r.monthName == "April") :=
  ⟨by decide,
   (C7_month_selector_calendar_order
      [⟨"", ⟨2025, 8, 2⟩, "A", none, "D"⟩,
       ⟨"", ⟨2025, 1, 5⟩, "B", none, "D"⟩,
       ⟨"", ⟨2025, 4, 9⟩, "C", none, "D"⟩] 2025).2.2.2.2.2 "April" (by decide)⟩

/-- C8 counterexample: with one raw row whose date is unparseable, zero
rows survive normalization, yet the run does NOT produce the "no data"
info outcome — it renders the full dashboard (title, three zero metrics,
summary, empty table), because the emptiness check runs on the raw table
before normalization. -/
theorem C8_counterexample_empty_after_normalize_still_renders :
    normalize 0 1 2 3 [["x", "a", "1", "d"]] = [] ∧
    runMain (.ok (["Date", "Sender", "Amount", "Doctor"], [["x", "a", "1", "d"]])) 0 0 =
      ⟨[.title none, .metric "Yearly Total" 0, .metric "Dr. Tripic (Year)" 0,
        .metric "Dr. Cartagena (Year)" 0, .summary "All Months" none 0, .table []], .ok⟩ ∧
    Render.infoMsg "Sheet is connected, but empty." ∉
      (runMain (.ok (["Date", "Sender", "Amount", "Doctor"],
        [["x", "a", "1", "d"]])) 0 0).renders := by
  decide

/-- C8 amended: the informational "no data" message appears exactly when
the fetched table has zero data rows; when raw rows exist but zero rows
survive normalization, the run still terminates normally but renders the
dashboard with no year options, zero totals and an empty table instead of
the info message. -/
theorem C8_amended_info_only_for_raw_empty (hdrs : List String)
    (rows : List (List String)) (yI mI : Nat) :
    (rows = [] → runMain (.ok (hdrs, rows)) yI mI
      = ⟨[.infoMsg "Sheet is connected, but empty."], .ok⟩) ∧
    (∀ di ai, rows ≠ [] →
      colIdx hdrs "Date" = some di → colIdx hdrs "Amount" = some ai →
      (colIdx hdrs "Doctor").isSome = true → (colIdx hdrs "Sender").isSome = true →
      normalize di ((colIdx hdrs "Sender").getD 0) ai
        ((colIdx hdrs "Doctor").getD 0) rows = [] →
      runMain (.ok (hdrs, rows)) yI mI
        = ⟨[.title none, .metric "Yearly Total" 0, .metric "Dr. Tripic (Year)" 0,
            .metric "Dr. Cartagena (Year)" 0, .summary "All Months" none 0,
            .table []], .ok⟩) := by
  constructor
  · rintro rfl
    rfl
  · intro di ai hne hD hA hDo hS hN
    have hE : rows.isEmpty = false := isEmpty_eq_false_of_ne_nil hne
    obtain ⟨doi, hdoi⟩ := Option.isSome_iff_exists.mp hDo
    obtain ⟨si, hsi⟩ := Option.isSome_iff_exists.mp hS
    rw [hsi, hdoi] at hN
    simp only [Option.getD_some] at hN
    simp [runMain, hE, hD, hA, hdoi, hsi, hN, availableYears, uniqueList, uniqueAux,
      sortBy, selectOpt, yearRecsOpt, sumAmount, doctorTotal, sortByDateDesc,
      getD_singleton_default]

/-- Witness for C8: the info message at an empty table, and the rendered
zero dashboard at a nonempty table whose single row fails normalization. -/
theorem C8_amended_info_only_for_raw_empty_witness :
    runMain (.ok (["Date", "Sender", "Amount", "Doctor"], [])) 0 0
      = ⟨[.infoMsg "Sheet is connected, but empty."], .ok⟩ ∧
    runMain (.ok (["Date", "Sender", "Amount", "Doctor"], [["x", "a", "1", "d"]])) 0 0
      = ⟨[.title none, .metric "Yearly Total" 0, .metric "Dr. Tripic (Year)" 0,
          .metric "Dr. Cartagena (Year)" 0, .summary "All Months" none 0,
          .table []], .ok⟩ :=
  ⟨(C8_amended_info_only_for_raw_empty ["Date", "Sender", "Amount", "Doctor"] [] 0 0).1 rfl,
   (C8_amended_info_only_for_raw_empty ["Date", "Sender", "Amount", "Doctor"]
      [["x", "a", "1", "d"]] 0 0).2 0 2 (by decide) (by decide) (by decide)
      (by decide) (by decide) (by decide)⟩

/-- C9 counterexample: with no `Date` column, the run ends in an uncaught
`KeyError` with nothing rendered — not the handled explanatory-message
path used for SourceUnavailable (which renders `st.error` and stops). -/
theorem C9_counterexample_missing_date_uncaught :
    runMain (.ok (["Sender", "Amount", "Doctor"], [["a", "1", "d"]])) 0 0
      = ⟨[], .keyError "Date"⟩ ∧
    runMain (.error "boom") 0 0
      = ⟨[.errorMsg "Error reading sheet: boom"], .stopped⟩ ∧
    (runMain (.ok (["Sender", "Amount", "Doctor"], [["a", "1", "d"]])) 0 0).renders = [] ∧
    (runMain (.ok (["Sender", "Amount", "Doctor"], [["a", "1", "d"]])) 0 0).terminal
      ≠ Terminal.stopped := by
  decide

/-- C9 amended: when the `Date` (or `Amount`) column is absent, the run
fails as a whole with an uncaught `KeyError` on that column — no
dashboard element is rendered and no substitute column is used — but it
is surfaced as an unhandled exception, not through the handled `st.error`
message path of SourceUnavailable. -/
theorem C9_amended_missing_column_keyerror (hdrs : List String)
    (rows : List (List String)) (yI mI : Nat) (hne : rows ≠ []) :
    (colIdx hdrs "Date" = none →
      runMain (.ok (hdrs, rows)) yI mI = ⟨[], .keyError "Date"⟩) ∧
    (∀ di, colIdx hdrs "Date" = some di → colIdx hdrs "Amount" = none →
      runMain (.ok (hdrs, rows)) yI mI = ⟨[], .keyError "Amount"⟩) := by
  have hE : rows.isEmpty = false := isEmpty_eq_false_of_ne_nil hne
  constructor
  · intro hD
    simp [runMain, hE, hD]
  · intro di hD hA
    simp [runMain, hE, hD, hA]

/-- Witness for C9: a concrete header list without `Date`, and one whose
`Amount` is missing. -/
theorem C9_amended_missing_column_keyerror_witness :
    runMain (.ok (["Sender", "Amount", "Doctor"], [["a", "1", "d"]])) 0 0
      = ⟨[], .keyError "Date"⟩ ∧
    runMain (.ok (["Date", "Sender", "Doctor"], [["2025-01-01", "a", "d"]])) 0 0
      = ⟨[], .keyError "Amount"⟩ :=
  ⟨(C9_amended_missing_column_keyerror ["Sender", "Amount", "Doctor"]
      [["a", "1", "d"]] 0 0 (by decide)).1 (by decide),
   (C9_amended_missing_column_keyerror ["Date", "Sender", "Doctor"]
      [["2025-01-01", "a", "d"]] 0 0 (by decide)).2 0 (by decide) (by decide)⟩

/-- C10: the year-level outputs are a function of the record set and the
selected year only — two runs differing only in the month choice render
the same first four elements (title and the three yearly metrics), the
same number of elements, and end the same way; only the summary line and
the table (positions 5 and 6) may differ. -/
theorem C10_yearly_metrics_month_invariant
    (fetch : Except String (List String × List (List String))) (yI m1 m2 : Nat) :
    (runMain fetch yI m1).renders.take 4 = (runMain fetch yI m2).renders.take 4 ∧
    (runMain fetch yI m1).renders.length = (runMain fetch yI m2).renders.length ∧
    (runMain fetch yI m1).terminal = (runMain fetch yI m2).terminal := by
  rcases fetch with e | ⟨hdrs, rows⟩
  · exact ⟨rfl, rfl, rfl⟩
  · by_cases hE : rows.isEmpty
    · simp [runMain, hE]
    · rcases hD : colIdx hdrs "Date" with _ | di
      · simp [runMain, hE, hD]
      · rcases hA : colIdx hdrs "Amount" with _ | ai
        · simp [runMain, hE, hD, hA]
        · rcases hDo : colIdx hdrs "Doctor" with _ | doi
          · simp [runMain, hE, hD, hA, hDo]
          · rcases hS : colIdx hdrs "Sender" with _ | si
            · simp [runMain, hE, hD, hA, hDo, hS, List.take]
            · simp [runMain, hE, hD, hA, hDo, hS, List.take]

end KitchenerFinance
